import Mathlib

/-!
Verification of the date-matching/rewrite engine of `date_changer_gui.py`.

The Python source is shallowly embedded:

* `normalize_exif` (date normalisation via `datetime.strptime` with the
  formats `"%Y:%m:%d"` and `"%Y-%m-%d"`),
* `parse_extensions` (the extension-list parser),
* `on_run` (the validation performed before the worker thread starts),
* `run_job` (the worker that resolves `exiftool` and assembles the
  invocation argument list).

External effects (tool resolution on `PATH`, the one-shot Homebrew install
attempt, the child process and its output) are modelled by an explicit
environment record `Env`; the GUI log (`ui_log`) becomes an accumulated
list of lines collected in a `JobTrace`.

CPython's `strptime` is regex based (`Lib/_strptime.py`): `%Y` matches
exactly four digits, `%m` matches `1[0-2]|0[1-9]|[1-9]`, `%d` matches
`3[01]|[12]\d|0[1-9]|[1-9]`, the regex must consume the whole string, and
the resulting `datetime` constructor validates the day against the
(proleptic Gregorian) month length and requires `1 <= year <= 9999`.
The embedding below reproduces exactly this, over ASCII digits.
-/

namespace DateChanger

/-! ### Digits -/

/-- One decimal digit character (used to model the digits produced by
Python's `strftime`). -/
def digitChar : Nat → Char
  | 0 => '0'
  | 1 => '1'
  | 2 => '2'
  | 3 => '3'
  | 4 => '4'
  | 5 => '5'
  | 6 => '6'
  | 7 => '7'
  | 8 => '8'
  | _ + 9 => '9'

/-- Numeric value of an ASCII digit, as `int()` produces inside
`strptime`; `none` on a non-digit. -/
def digitVal (c : Char) : Option Nat :=
  if c.isDigit then some (c.toNat - 48) else none

theorem digitChar_isDigit (k : Nat) : (digitChar k).isDigit = true := by
  match k with
  | 0 | 1 | 2 | 3 | 4 | 5 | 6 | 7 | 8 => rfl
  | n + 9 => rfl

theorem digitChar_ne_of_not_digit (k : Nat) (c : Char) (h : c.isDigit = false) :
    digitChar k ≠ c := by
  intro he
  rw [← he, digitChar_isDigit] at h
  exact Bool.noConfusion h

theorem digitVal_digitChar (k : Nat) (h : k < 10) : digitVal (digitChar k) = some k := by
  interval_cases k <;> decide

/-! ### The `strptime` fragment used by the source

`datetime.strptime(s, "%Y:%m:%d")` (resp. with `-`) is modelled by
`strptimeYMD ':'` (resp. `strptimeYMD '-'`).  The field parsers follow the
`_strptime` regex alternatives in order; because every alternative is
followed by a separator or the end of the input, the committed (first
match) choice coincides with the regex's backtracking behaviour. -/

/-- `%Y`: exactly four ASCII digits. -/
def parse4Digits : List Char → Option (Nat × List Char)
  | a :: b :: c :: d :: rest =>
    match digitVal a, digitVal b, digitVal c, digitVal d with
    | some x1, some x2, some x3, some x4 =>
      some (x1 * 1000 + x2 * 100 + x3 * 10 + x4, rest)
    | _, _, _, _ => none
  | _ => none

/-- `%m`: the regex `1[0-2]|0[1-9]|[1-9]` in alternation order. -/
def parseMonth : List Char → Option (Nat × List Char)
  | [] => none
  | c1 :: rest1 =>
    if c1 = '1' then
      match rest1 with
      | c2 :: rest2 =>
        if c2 = '0' ∨ c2 = '1' ∨ c2 = '2' then some (10 + (c2.toNat - 48), rest2)
        else some (1, rest1)
      | [] => some (1, [])
    else if c1 = '0' then
      match rest1 with
      | c2 :: rest2 =>
        if '1' ≤ c2 ∧ c2 ≤ '9' then some (c2.toNat - 48, rest2) else none
      | [] => none
    else if '2' ≤ c1 ∧ c1 ≤ '9' then some (c1.toNat - 48, rest1)
    else none

/-- `%d`: the regex `3[01]|[12]\d|0[1-9]|[1-9]` in alternation order. -/
def parseDay : List Char → Option (Nat × List Char)
  | [] => none
  | c1 :: rest1 =>
    if c1 = '3' then
      match rest1 with
      | c2 :: rest2 =>
        if c2 = '0' ∨ c2 = '1' then some (30 + (c2.toNat - 48), rest2)
        else some (3, rest1)
      | [] => some (3, [])
    else if c1 = '1' ∨ c1 = '2' then
      match rest1 with
      | c2 :: rest2 =>
        if c2.isDigit then some ((c1.toNat - 48) * 10 + (c2.toNat - 48), rest2)
        else some (c1.toNat - 48, rest1)
      | [] => some (c1.toNat - 48, [])
    else if c1 = '0' then
      match rest1 with
      | c2 :: rest2 =>
        if '1' ≤ c2 ∧ c2 ≤ '9' then some (c2.toNat - 48, rest2) else none
      | [] => none
    else if '4' ≤ c1 ∧ c1 ≤ '9' then some (c1.toNat - 48, rest1)
    else none

/-- The full `%Y<sep>%m<sep>%d` regex, which must consume the whole
input (CPython raises `unconverted data remains` otherwise). -/
def parseShape (sep : Char) (cs : List Char) : Option (Nat × Nat × Nat) :=
  match parse4Digits cs with
  | some (y, s1 :: r1) =>
    if s1 = sep then
      match parseMonth r1 with
      | some (m, s2 :: r2) =>
        if s2 = sep then
          match parseDay r2 with
          | some (d, []) => some (y, m, d)
          | _ => none
        else none
      | _ => none
    else none
  | _ => none

/-- Proleptic-Gregorian leap year, as `datetime` uses. -/
def isLeapYear (y : Nat) : Bool :=
  y % 4 == 0 && (y % 100 != 0 || y % 400 == 0)

def daysInMonth (y m : Nat) : Nat :=
  if m = 2 then (if isLeapYear y then 29 else 28)
  else if m = 4 ∨ m = 6 ∨ m = 9 ∨ m = 11 then 30
  else 31

/-- The validity check performed by the `datetime` constructor
(`MINYEAR = 1`, `MAXYEAR = 9999`; the month range is already enforced by
the `%m` regex but `datetime` re-checks it). -/
def validYMD (y m d : Nat) : Prop :=
  1 ≤ y ∧ y ≤ 9999 ∧ 1 ≤ m ∧ m ≤ 12 ∧ 1 ≤ d ∧ d ≤ daysInMonth y m

instance (y m d : Nat) : Decidable (validYMD y m d) := by
  unfold validYMD; infer_instance

/-- `datetime.strptime(s, "%Y<sep>%m<sep>%d")`: regex parse, then
validation by the `datetime` constructor.  Returns the parsed fields. -/
def strptimeYMD (sep : Char) (cs : List Char) : Option (Nat × Nat × Nat) :=
  match parseShape sep cs with
  | some (y, m, d) => if validYMD y m d then some (y, m, d) else none
  | none => none

/-! ### Formatting (`strftime("%Y:%m:%d")`) -/

/-- Two-digit zero-padded field (`%m` / `%d` output). -/
def pad2 (n : Nat) : List Char := [digitChar (n / 10), digitChar (n % 10)]

/-- Four-digit zero-padded year (`%Y` output; the year parsed from a
four-digit field is printed back as its four digits). -/
def pad4 (n : Nat) : List Char :=
  [digitChar (n / 1000), digitChar (n / 100 % 10), digitChar (n / 10 % 10), digitChar (n % 10)]

/-- `dt.strftime("%Y:%m:%d")`. -/
def fmtYMD (y m d : Nat) : List Char :=
  pad4 y ++ ':' :: (pad2 m ++ ':' :: pad2 d)

/-- The canonical textual form `YYYY:MM:DD` of a date. -/
def canonStr (y m d : Nat) : String := String.mk (fmtYMD y m d)

/-- The alternate accepted shape `YYYY-MM-DD`. -/
def dashStr (y m d : Nat) : String :=
  String.mk (pad4 y ++ '-' :: (pad2 m ++ '-' :: pad2 d))

/-! ### `normalize_exif` -/

/-- The inner helper `normalize_exif` of `on_run`:

    if ":" in s:
        try: datetime.datetime.strptime(s, "%Y:%m:%d"); return s
        except Exception: return None
    else:
        try: dt = datetime.datetime.strptime(s, "%Y-%m-%d"); return dt.strftime("%Y:%m:%d")
        except Exception: return None
-/
def normalize_exif (s : String) : Option String :=
  if ':' ∈ s.data then
    match strptimeYMD ':' s.data with
    | some _ => some s
    | none => none
  else
    match strptimeYMD '-' s.data with
    | some (y, m, d) => some (String.mk (fmtYMD y m d))
    | none => none

/-! ### The `exiftool` invocation model

The worker `run_job` assembles an argument list for `exiftool`.  The
`-if` condition and the tag-assignment arguments embed small Perl
fragments; they are modelled by tiny ASTs (`Cond`, `Assign`) whose
`render` functions produce exactly the strings the Python code builds,
and whose `eval`/`valueWritten` functions give the standard Perl/exiftool
meaning of those fragments for the literal date patterns the program
uses (a canonical date contains only digits and `:`, so it is a literal
regex). -/

/-- The metadata/file fields the program mentions. -/
inductive FieldName
  | DateTimeOriginal
  | CreateDate
  | FileModifyDate
  | FileCreateDate
  | FileName
deriving DecidableEq

def FieldName.render : FieldName → String
  | .DateTimeOriginal => "DateTimeOriginal"
  | .CreateDate => "CreateDate"
  | .FileModifyDate => "FileModifyDate"
  | .FileCreateDate => "FileCreateDate"
  | .FileName => "FileName"

/-- The `-if` condition fragment: prefix-anchored regex tests on tag
values, possibly joined by `or`. -/
inductive Cond
  | startsWith (f : FieldName) (pat : String)
  | or (a b : Cond)

/-- Render a condition exactly as the Python f-strings do. -/
def Cond.render : Cond → String
  | .startsWith f pat => "$" ++ f.render ++ "=~/^" ++ pat ++ "/"
  | .or a b => a.render ++ " or " ++ b.render

/-- Bool-valued prefix test on character lists (the meaning of the
anchored regex `^pat` for a literal `pat`). -/
def isPrefixList : List Char → List Char → Bool
  | [], _ => true
  | _ :: _, [] => false
  | a :: as, b :: bs => a = b && isPrefixList as bs

/-- Truth value of a rendered condition on a file, given its tag values
(`none` means the tag is absent; `$TAG=~/^pat/` is then false and the
file is skipped). -/
def Cond.eval (tags : FieldName → Option String) : Cond → Bool
  | .startsWith f pat =>
    match tags f with
    | some v => isPrefixList pat.data v.data
    | none => false
  | .or a b => a.eval tags || b.eval tags

/-- The filter built in `run_job`:

    if match_mode == "exif":
        exif_if = f"$DateTimeOriginal=~/^{old_norm}/ or $CreateDate=~/^{old_norm}/"
    else:
        exif_if = f"$FileModifyDate=~/^{old_norm}/"
-/
def buildCond (match_mode old_norm : String) : Cond :=
  if match_mode = "exif" then
    .or (.startsWith .DateTimeOriginal old_norm) (.startsWith .CreateDate old_norm)
  else
    .startsWith .FileModifyDate old_norm

/-- Meaning of the Perl substitution `$_ =~ s/^old/new/` for a literal
`old`: if `old` is a leading prefix of the value, replace that prefix by
`new`; otherwise the value is unchanged. -/
def substLeading (old nn v : String) : String :=
  if isPrefixList old.data v.data then String.mk (nn.data ++ v.data.drop old.data.length)
  else v

/-- A planned field assignment (one `-TAG<...` argument). -/
inductive Assign
  | rewriteModifiedFrom (src : FieldName) (old nn : String)
  | createdFromModified
deriving DecidableEq

/-- Render an assignment exactly as `run_job` builds it
(`assigns.append(...)`). -/
def Assign.render : Assign → String
  | .rewriteModifiedFrom src old nn =>
    "-FileModifyDate<$\x7b" ++ src.render ++ ";$_=~s/^" ++ old ++ "/" ++ nn ++ "/\x7d"
  | .createdFromModified => "-FileCreateDate<FileModifyDate"

/-- The value an assignment writes into its destination field, given the
file's (pre-assignment) tag values; `none` when the source tag is absent
(exiftool then skips the assignment). -/
def Assign.valueWritten (tags : FieldName → Option String) : Assign → Option String
  | .rewriteModifiedFrom src old nn => (tags src).map (substLeading old nn)
  | .createdFromModified => tags .FileModifyDate

/-- Python truthiness of an optional string (`None` and `""` are falsy). -/
def truthy : Option String → Bool
  | none => false
  | some s => !(s = "")

/-- The parameters `run_job` receives from `on_run` (via the worker
thread). -/
structure JobArgs where
  source_dir : String
  old_norm : String
  new_norm : Option String
  match_mode : String
  exts : Option (List String)
  set_modified : Bool
  set_created : Bool
  dry_run : Bool
deriving DecidableEq

/-- The assignment plan of `run_job`:

    assigns = []
    if set_modified and new_norm:
        if match_mode == "exif":
            assigns.append(f"-FileModifyDate<$\x7bDateTimeOriginal;$_=~s/^{old_norm}/{new_norm}/\x7d")
        else:
            assigns.append(f"-FileModifyDate<$\x7bFileModifyDate;$_=~s/^{old_norm}/{new_norm}/\x7d")
    if set_created:
        assigns.append("-FileCreateDate<FileModifyDate")
-/
def buildAssigns (a : JobArgs) : List Assign :=
  (if a.set_modified && truthy a.new_norm then
    [.rewriteModifiedFrom
      (if a.match_mode = "exif" then .DateTimeOriginal else .FileModifyDate)
      a.old_norm (a.new_norm.getD "")]
  else []) ++
  (if a.set_created then [.createdFromModified] else [])

/-- The `$\x7bTAG;$_=~s/^\d\x7b4\x7d:\d\x7b2\x7d:\d\x7b2\x7d //\x7d` fragment of the dry-run
preview format string. -/
def stripExpr (tag : String) : String :=
  "$\x7b" ++ tag ++ ";$_=~s/^\\d\x7b4\x7d:\\d\x7b2\x7d:\\d\x7b2\x7d //\x7d"

def defaultPreview : String :=
  "$FileName | Created will become Modified | $FileCreateDate -> $FileModifyDate"

/-- The `-p` format string chosen in the dry-run branch of `run_job`. -/
def previewFmt (a : JobArgs) : String :=
  if a.set_modified && truthy a.new_norm then
    if a.match_mode = "exif" then
      "$FileName | $DateTimeOriginal -> " ++ a.new_norm.getD "" ++ " " ++
        stripExpr "DateTimeOriginal"
    else
      "$FileName | $FileModifyDate -> " ++ a.new_norm.getD "" ++ " " ++
        stripExpr "FileModifyDate"
  else defaultPreview

/-- The `for e in exts: base += ["-ext", e]` loop. -/
def extArgsList : List String → List String
  | [] => []
  | e :: es => "-ext" :: e :: extArgsList es

/-- The safe-character class of `shlex.quote`: ASCII word characters
plus `@ % + = : , . -` and the slash. -/
def shlexSafeChar (c : Char) : Bool :=
  c.isAlpha || c.isDigit || c = '_' || c = '@' || c = '%' || c = '+' || c = '=' ||
    c = ':' || c = ',' || c = '.' || c = '/' || c = '-'

/-- A single-quote character (written via its code point to keep the
sources free of stray quote glyphs). -/
def squote : String := String.mk [Char.ofNat 39]

/-- `shlex.quote`. -/
def shlexQuote (s : String) : String :=
  if s = "" then squote ++ squote
  else if s.data.all shlexSafeChar then s
  else squote ++ s.replace squote (squote ++ "\"" ++ squote ++ "\"" ++ squote) ++ squote

/-- `" ".join(shlex.quote(c) for c in cmd)`. -/
def joinQuoted (cmd : List String) : String :=
  String.intercalate " " (cmd.map shlexQuote)

/-- The execution environment `run_job` interacts with: the result of
`which("exiftool")` before and after the install attempt, whether
`ensure_homebrew()` succeeds, and the combined output stream and exit
code of the child process (when one is started). -/
structure Env where
  whichExiftool : Option String
  homebrewOk : Bool
  whichExiftoolAfterInstall : Option String
  childLines : List String
  childExit : Int

/-- Everything observable about one `run_job` call: the `ui_log` lines it
emits, how many times it shells out to `brew install exiftool`, the
argument list of the main exiftool child process (`none` when no main
child process is started), and the exit code it reports (`none` when the
function returns before reaching the execution step). -/
structure JobTrace where
  logs : List String
  brewInstalls : Nat
  mainInvocation : Option (List String)
  exitCode : Option Int
deriving DecidableEq

/-- Python `bool` rendering inside f-strings. -/
def pyBool (b : Bool) : String := if b then "True" else "False"

/-- The tool-resolution prologue of `run_job` (lines 439-445): the log
lines it emits, the number of `brew install exiftool` shell-outs, and the
resolved exiftool path (if any). -/
def resolveTool (env : Env) : List String × Nat × Option String :=
  match env.whichExiftool with
  | some p => ([], 0, some p)
  | none =>
    let l0 := ["ExifTool not found. Attempting to install via Homebrew..."]
    if env.homebrewOk then (l0, 1, env.whichExiftoolAfterInstall)
    else (l0, 0, none)

/-- The `base` list of `run_job` (lines 451-456): tool path, `-fast2`,
`-r`, the extension arguments, and — in write mode only —
`-overwrite_original`. -/
def buildBase (etPath : String) (a : JobArgs) : List String :=
  [etPath, "-fast2", "-r"] ++
  (match a.exts with
   | some es => extArgsList es
   | none => []) ++
  (if a.dry_run then [] else ["-overwrite_original"])

/-- The full argument list handed to `subprocess.Popen` (line 483 in the
dry-run branch, line 492 in the write branch). -/
def buildInvocation (etPath : String) (a : JobArgs) : List String :=
  if a.dry_run then
    buildBase etPath a ++
      ["-if", (buildCond a.match_mode a.old_norm).render, "-p", previewFmt a, a.source_dir]
  else
    buildBase etPath a ++ ["-if", (buildCond a.match_mode a.old_norm).render] ++
      (buildAssigns a).map Assign.render ++ [a.source_dir]

/-- The worker `run_job` (lines 438-499 of the source), as a function of
the environment and its arguments. -/
def run_job (env : Env) (a : JobArgs) : JobTrace :=
  match resolveTool env with
  | (logs0, brews, none) =>
    { logs := logs0 ++ ["ERROR: exiftool not available."]
      brewInstalls := brews
      mainInvocation := none
      exitCode := none }
  | (logs0, brews, some etPath) =>
    let inv := buildInvocation etPath a
    if a.dry_run then
      { logs := logs0 ++ ["Preview (no writes):", joinQuoted inv] ++
          env.childLines ++ ["[exit code " ++ toString env.childExit ++ "]"]
        brewInstalls := brews
        mainInvocation := some inv
        exitCode := some env.childExit }
    else
      { logs := logs0 ++ ["Running exiftool writes...", joinQuoted inv] ++
          env.childLines ++ ["[exit code " ++ toString env.childExit ++ "]"]
        brewInstalls := brews
        mainInvocation := some inv
        exitCode := some env.childExit }

/-! ### `on_run` -/

/-- Python `str.strip()`: drop leading and trailing whitespace. -/
def pyStrip (s : String) : String :=
  String.mk (((s.data.dropWhile Char.isWhitespace).reverse.dropWhile Char.isWhitespace).reverse)

/-- Python `str.lower()` (over the ASCII range the program uses). -/
def pyLower (s : String) : String := String.mk (s.data.map Char.toLower)

/-- Python `str.upper()` (over the ASCII range the program uses). -/
def pyUpper (s : String) : String := String.mk (s.data.map Char.toUpper)

/-- `lstrip(".")`. -/
def lstripDots (s : String) : String :=
  String.mk (s.data.dropWhile (fun c => c = '.'))

/-- `raw.split(",")`: split a character list at every comma. -/
def splitCommas : List Char → List (List Char)
  | [] => [[]]
  | c :: cs =>
    let rest := splitCommas cs
    if c = ',' then [] :: rest
    else
      match rest with
      | r :: rs => (c :: r) :: rs
      | [] => [[c]]

/-- `parse_extensions`:

    raw = self.exts_var.get().strip()
    if not raw or raw == "*":
        return None  # None = all files
    parts = [p.strip().lower().lstrip(".") for p in raw.split(",") if p.strip()]
    return [p for p in parts if p]

(An empty result list and `None` put the same arguments — none — into the
command, since both are falsy in `run_job`'s `if exts:`.) -/
def parse_extensions (raw0 : String) : Option (List String) :=
  let raw := pyStrip raw0
  if raw = "" ∨ raw = "*" then none
  else
    let parts := (((splitCommas raw.data).map String.mk).filter
        (fun p => ¬pyStrip p = "")).map
      (fun p => lstripDots (pyLower (pyStrip p)))
    some (parts.filter (fun p => ¬p = ""))

/-- The outcome of the `on_run` click handler: one of the three
validation failures (each shows a message box and returns without
starting anything), or a started worker thread carrying the header lines
just logged and the `run_job` arguments. -/
inductive RunOutcome
  | invalidFolder
  | invalidDates
  | missingTargetDate
  | started (headerLogs : List String) (a : JobArgs)
deriving DecidableEq

/-- The state read from the UI widgets at the moment of the click. -/
structure UiState where
  dir_raw : String
  old_raw : String
  new_raw : String
  match_mode : String
  dry_run : Bool
  set_created : Bool
  set_modified : Bool
  exts_raw : String

/-- The `on_run` handler (lines 392-436 of the source).  `isdir` is the
result of `os.path.isdir(source_dir)`. -/
def on_run (isdir : Bool) (u : UiState) : RunOutcome :=
  let source_dir := pyStrip u.dir_raw
  let old_date := pyStrip u.old_raw
  let new_date := pyStrip u.new_raw
  let exts := parse_extensions u.exts_raw
  if ¬isdir then .invalidFolder
  else
    match normalize_exif old_date with
    | none => .invalidDates
    | some old_norm =>
      let new_norm := if ¬new_date = "" then normalize_exif new_date else none
      if u.set_modified && !truthy new_norm then .missingTargetDate
      else
        .started
          ["Folder: " ++ source_dir,
           "Match by: " ++ pyUpper u.match_mode,
           "Match Date: " ++ old_norm ++ "  | Target Date: " ++ new_norm.getD "(none)",
           "Extensions: " ++ u.exts_raw,
           "Set Date Modified to Target: " ++ pyBool u.set_modified,
           "Also set Date Created = Modified: " ++ pyBool u.set_created,
           "Dry run: " ++ pyBool u.dry_run,
           "-------------------------------------------------------------"]
          { source_dir := source_dir
            old_norm := old_norm
            new_norm := new_norm
            match_mode := u.match_mode
            exts := exts
            set_modified := u.set_modified
            set_created := u.set_created
            dry_run := u.dry_run }

/-! ### Dry-run preview semantics

In the dry-run/`set_modified` branch the `-p` format prints, after the
file name and the current source-field value, the would-be value
`{new_norm} $\x7bTAG;$_=~s/^\d\x7b4\x7d:\d\x7b2\x7d:\d\x7b2\x7d //\x7d`: the target date followed by
the source value with a leading `dddd:dd:dd<space>` prefix removed. -/

/-- Matches the anchored regex `^\d\x7b4\x7d:\d\x7b2\x7d:\d\x7b2\x7d ` (ten
date characters and a space); returns the remainder on success. -/
def dateTimePrefixMatch : List Char → Option (List Char)
  | c1 :: c2 :: c3 :: c4 :: s1 :: c5 :: c6 :: s2 :: c7 :: c8 :: sp :: rest =>
    if c1.isDigit && c2.isDigit && c3.isDigit && c4.isDigit && s1 = ':' &&
       c5.isDigit && c6.isDigit && s2 = ':' && c7.isDigit && c8.isDigit && sp = ' '
    then some rest
    else none
  | _ => none

/-- Meaning of `$_=~s/^\d\x7b4\x7d:\d\x7b2\x7d:\d\x7b2\x7d //` on a tag value. -/
def stripLeadingDateTime (v : String) : String :=
  match dateTimePrefixMatch v.data with
  | some rest => String.mk rest
  | none => v

/-- The post-value printed by the dry-run preview for the rewritten
field: the target date, a space, and the stripped current value. -/
def previewPostValue (nn v : String) : String :=
  nn ++ " " ++ stripLeadingDateTime v

/-! ### Parsing lemmas -/

theorem daysInMonth_le (y m : Nat) : daysInMonth y m ≤ 31 := by
  unfold daysInMonth
  split
  · split <;> omega
  · split <;> omega

theorem parse4Digits_pad4 (y : Nat) (hy : y ≤ 9999) (rest : List Char) :
    parse4Digits (pad4 y ++ rest) = some (y, rest) := by
  have h1 : y / 1000 < 10 := by omega
  have h2 : y / 100 % 10 < 10 := Nat.mod_lt _ (by norm_num)
  have h3 : y / 10 % 10 < 10 := Nat.mod_lt _ (by norm_num)
  have h4 : y % 10 < 10 := Nat.mod_lt _ (by norm_num)
  simp [pad4, parse4Digits, digitVal_digitChar _ h1, digitVal_digitChar _ h2,
    digitVal_digitChar _ h3, digitVal_digitChar _ h4]
  omega

theorem parseMonth_pad2 (m : Nat) (hm1 : 1 ≤ m) (hm2 : m ≤ 12) (rest : List Char) :
    parseMonth (pad2 m ++ rest) = some (m, rest) := by
  interval_cases m <;> simp +decide [pad2, digitChar, parseMonth]

theorem parseDay_pad2 (d : Nat) (hd1 : 1 ≤ d) (hd2 : d ≤ 31) (rest : List Char) :
    parseDay (pad2 d ++ rest) = some (d, rest) := by
  interval_cases d <;> simp +decide [pad2, digitChar, parseDay]

/-- A well-shaped `YYYY<sep>MM<sep>DD` list parses back to its fields. -/
theorem parseShape_shape (sep : Char) (y m d : Nat) (hy : y ≤ 9999)
    (hm1 : 1 ≤ m) (hm2 : m ≤ 12) (hd1 : 1 ≤ d) (hd2 : d ≤ 31) :
    parseShape sep (pad4 y ++ sep :: (pad2 m ++ sep :: pad2 d)) = some (y, m, d) := by
  have hday := parseDay_pad2 d hd1 hd2 []
  rw [List.append_nil] at hday
  simp [parseShape, parse4Digits_pad4 y hy, parseMonth_pad2 m hm1 hm2, hday]

theorem colon_ne_digitChar (k : Nat) : (':' : Char) ≠ digitChar k :=
  fun h => digitChar_ne_of_not_digit k ':' (by decide) h.symm

theorem strptimeYMD_shape (sep : Char) (y m d : Nat) (hy : y ≤ 9999)
    (hm1 : 1 ≤ m) (hm2 : m ≤ 12) (hd1 : 1 ≤ d) (hd2 : d ≤ 31) :
    strptimeYMD sep (pad4 y ++ sep :: (pad2 m ++ sep :: pad2 d)) =
      if validYMD y m d then some (y, m, d) else none := by
  simp [strptimeYMD, parseShape_shape sep y m d hy hm1 hm2 hd1 hd2]

/-- After a well-formed four-digit year and its separator, `parseShape`
continues with the month field. -/
theorem parseShape_month_step (sep : Char) (y : Nat) (hy : y ≤ 9999) (r1 : List Char) :
    parseShape sep (pad4 y ++ sep :: r1) =
      (match parseMonth r1 with
       | some (m, s2 :: r2) =>
         if s2 = sep then
           match parseDay r2 with
           | some (d, []) => some (y, m, d)
           | _ => none
         else none
       | _ => none) := by
  unfold parseShape
  rw [parse4Digits_pad4 y hy]
  simp

/-- A two-digit month field outside 01-12 makes the whole parse fail:
`00` matches no `%m` alternative, and for `13`-`99` the regex consumes
only one digit, leaving a digit where the separator (a non-digit) must
come.  `tail` is whatever follows the month field. -/
theorem parseShape_bad_month (sep : Char) (hsep : sep.isDigit = false) (y m : Nat)
    (hy : y ≤ 9999) (hm : m ≤ 99) (hbad : m = 0 ∨ 13 ≤ m) (tail : List Char) :
    parseShape sep (pad4 y ++ sep :: (pad2 m ++ tail)) = none := by
  have hne : ∀ k : Nat, (digitChar k = sep) = False := by
    intro k
    apply eq_false
    intro h
    have hk := digitChar_isDigit k
    rw [h] at hk
    rw [hk] at hsep
    exact Bool.noConfusion hsep
  rw [parseShape_month_step sep y hy]
  rcases hbad with rfl | h13
  · simp +decide [pad2, parseMonth]
  · interval_cases m <;> simp +decide [pad2, parseMonth, hne]

/-- A two-digit day field outside 01-31, in final position, makes the
whole parse fail: `00` matches no `%d` alternative, and for `32`-`99`
the regex consumes only one digit, leaving unconverted data. -/
theorem parseShape_bad_day (sep : Char) (y m d : Nat) (hy : y ≤ 9999)
    (hm1 : 1 ≤ m) (hm2 : m ≤ 12) (hd99 : d ≤ 99) (hbad : d = 0 ∨ 32 ≤ d) :
    parseShape sep (pad4 y ++ sep :: (pad2 m ++ sep :: pad2 d)) = none := by
  rw [parseShape_month_step sep y hy, parseMonth_pad2 m hm1 hm2]
  rcases hbad with rfl | h32
  · simp +decide [pad2, parseDay]
  · interval_cases d <;> simp +decide [pad2, parseDay]

/-- `strptime` on any `YYYY<sep>MM<sep>DD` string with two-digit month
and day fields (00-99): it succeeds exactly on valid calendar dates. -/
theorem strptimeYMD_shape_general (sep : Char) (hsep : sep.isDigit = false)
    (y m d : Nat) (hy : y ≤ 9999) (hm : m ≤ 99) (hd : d ≤ 99) :
    strptimeYMD sep (pad4 y ++ sep :: (pad2 m ++ sep :: pad2 d)) =
      if validYMD y m d then some (y, m, d) else none := by
  by_cases hmr : 1 ≤ m ∧ m ≤ 12
  · by_cases hdr : 1 ≤ d ∧ d ≤ 31
    · exact strptimeYMD_shape sep y m d hy hmr.1 hmr.2 hdr.1 hdr.2
    · have hbad : d = 0 ∨ 32 ≤ d := by omega
      have hnv : ¬validYMD y m d := by
        have h31 := daysInMonth_le y m
        unfold validYMD
        omega
      unfold strptimeYMD
      rw [parseShape_bad_day sep y m d hy hmr.1 hmr.2 hd hbad, if_neg hnv]
  · have hbad : m = 0 ∨ 13 ≤ m := by omega
    have hnv : ¬validYMD y m d := by
      unfold validYMD
      omega
    unfold strptimeYMD
    rw [parseShape_bad_month sep hsep y m hy hm hbad (sep :: pad2 d), if_neg hnv]

theorem colon_mem_fmtYMD (y m d : Nat) : ':' ∈ fmtYMD y m d := by
  simp [fmtYMD]

theorem colon_not_mem_dash (y m d : Nat) :
    ':' ∉ (pad4 y ++ '-' :: (pad2 m ++ '-' :: pad2 d)) := by
  simp +decide [pad4, pad2, colon_ne_digitChar]

/-- C1. Every valid calendar date, presented in either accepted shape
(`YYYY:MM:DD` or `YYYY-MM-DD`), is accepted by `normalize_exif`, and both
shapes produce the identical canonical `YYYY:MM:DD` value. -/
theorem normalize_both_shapes (y m d : Nat) (h : validYMD y m d) :
    normalize_exif (canonStr y m d) = some (canonStr y m d) ∧
    normalize_exif (dashStr y m d) = some (canonStr y m d) := by
  obtain ⟨h1, h2, h3, h4, h5, h6⟩ := h
  have hd31 : d ≤ 31 := le_trans h6 (daysInMonth_le y m)
  have hvalid : validYMD y m d := ⟨h1, h2, h3, h4, h5, h6⟩
  have hcolon := strptimeYMD_shape ':' y m d h2 h3 h4 h5 hd31
  have hdash := strptimeYMD_shape '-' y m d h2 h3 h4 h5 hd31
  rw [if_pos hvalid] at hcolon hdash
  constructor
  · unfold normalize_exif
    rw [if_pos (show ':' ∈ (canonStr y m d).data from colon_mem_fmtYMD y m d)]
    rw [show (canonStr y m d).data = pad4 y ++ ':' :: (pad2 m ++ ':' :: pad2 d) from rfl,
      hcolon]
  · unfold normalize_exif
    rw [if_neg (show ¬(':' ∈ (dashStr y m d).data) from colon_not_mem_dash y m d)]
    rw [show (dashStr y m d).data = pad4 y ++ '-' :: (pad2 m ++ '-' :: pad2 d) from rfl,
      hdash]
    rfl

/-- Witness for C1 at the concrete date 2025-10-25. -/
theorem normalize_both_shapes_check :
    normalize_exif (canonStr 2025 10 25) = some (canonStr 2025 10 25) ∧
    normalize_exif (dashStr 2025 10 25) = some (canonStr 2025 10 25) :=
  normalize_both_shapes 2025 10 25 (by decide)

/-- A mixed-separator string `YYYY:MM-DD`. -/
def mixedA (y m d : Nat) : String :=
  String.mk (pad4 y ++ ':' :: (pad2 m ++ '-' :: pad2 d))

/-- A mixed-separator string `YYYY-MM:DD`. -/
def mixedB (y m d : Nat) : String :=
  String.mk (pad4 y ++ '-' :: (pad2 m ++ ':' :: pad2 d))

theorem strptime_mixedA (y m d : Nat) (hy : y ≤ 9999) (hm : m ≤ 99) :
    strptimeYMD ':' (pad4 y ++ ':' :: (pad2 m ++ '-' :: pad2 d)) = none := by
  by_cases hmr : 1 ≤ m ∧ m ≤ 12
  · unfold strptimeYMD
    rw [parseShape_month_step ':' y hy, parseMonth_pad2 m hmr.1 hmr.2]
    simp +decide
  · unfold strptimeYMD
    rw [parseShape_bad_month ':' (by decide) y m hy hm (by omega) ('-' :: pad2 d)]

theorem strptime_mixedB (y m d : Nat) (hy : y ≤ 9999) :
    strptimeYMD ':' (pad4 y ++ '-' :: (pad2 m ++ ':' :: pad2 d)) = none := by
  simp +decide [strptimeYMD, parseShape, parse4Digits_pad4 y hy]

/-- C2 (counterexample to the claim as stated). "Wrong digit grouping"
does not always fail: the underlying `strptime` regex tolerates
single-digit month and day fields, so `"2025:1:5"` is accepted — and is
returned as-is, which is not the canonical `YYYY:MM:DD` form either. -/
theorem normalize_accepts_unpadded :
    normalize_exif "2025:1:5" = some "2025:1:5" ∧ "2025:1:5" ≠ canonStr 2025 1 5 := by
  decide

/-- C2 (amended). `normalize_exif` fails (returns `none`, producing no
partial value) on the empty string, on mixed separators within one
string (`YYYY:MM-DD` and `YYYY-MM:DD`), and on every properly grouped
string (four-digit year, two-digit month and day fields `00`-`99`) that
is not an actual calendar date: month `00` or `13`-`99`, day `00` or
`32`-`99` (e.g. `2025:13:40`), a day exceeding the month's length
(e.g. `2025:02:30`), or year `0000`; the one tolerated deviation from
the claim is unpadded month/day digit groupings, per
`normalize_accepts_unpadded`. -/
theorem normalize_rejects_malformed (y m d : Nat) (hy : y ≤ 9999)
    (hm : m ≤ 99) (hd : d ≤ 99) :
    normalize_exif "" = none ∧
    normalize_exif (mixedA y m d) = none ∧
    normalize_exif (mixedB y m d) = none ∧
    (¬validYMD y m d →
      normalize_exif (canonStr y m d) = none ∧ normalize_exif (dashStr y m d) = none) := by
  have hcolon := strptimeYMD_shape_general ':' (by decide) y m d hy hm hd
  have hdash := strptimeYMD_shape_general '-' (by decide) y m d hy hm hd
  refine ⟨by decide, ?_, ?_, fun hnv => ⟨?_, ?_⟩⟩
  · unfold normalize_exif
    rw [if_pos (show ':' ∈ (mixedA y m d).data by simp [mixedA])]
    rw [show (mixedA y m d).data = pad4 y ++ ':' :: (pad2 m ++ '-' :: pad2 d) from rfl,
      strptime_mixedA y m d hy hm]
  · unfold normalize_exif
    rw [if_pos (show ':' ∈ (mixedB y m d).data by simp [mixedB])]
    rw [show (mixedB y m d).data = pad4 y ++ '-' :: (pad2 m ++ ':' :: pad2 d) from rfl,
      strptime_mixedB y m d hy]
  · rw [if_neg hnv] at hcolon
    unfold normalize_exif
    rw [if_pos (show ':' ∈ (canonStr y m d).data from colon_mem_fmtYMD y m d)]
    rw [show (canonStr y m d).data = pad4 y ++ ':' :: (pad2 m ++ ':' :: pad2 d) from rfl,
      hcolon]
  · rw [if_neg hnv] at hdash
    unfold normalize_exif
    rw [if_neg (show ¬(':' ∈ (dashStr y m d).data) from colon_not_mem_dash y m d)]
    rw [show (dashStr y m d).data = pad4 y ++ '-' :: (pad2 m ++ '-' :: pad2 d) from rfl,
      hdash]

/-- Witness for C2: concrete rejections — mixed separators 2025:10-25,
the impossible month/day 2025:13:40 in both shapes, and the
month-length violation 2025:02:30. -/
theorem normalize_rejects_malformed_check :
    normalize_exif (mixedA 2025 10 25) = none ∧
    normalize_exif (canonStr 2025 13 40) = none ∧
    normalize_exif (dashStr 2025 13 40) = none ∧
    normalize_exif (canonStr 2025 2 30) = none := by
  have ha := normalize_rejects_malformed 2025 10 25 (by norm_num) (by norm_num) (by norm_num)
  have hb := normalize_rejects_malformed 2025 13 40 (by norm_num) (by norm_num) (by norm_num)
  have hc := normalize_rejects_malformed 2025 2 30 (by norm_num) (by norm_num) (by norm_num)
  exact ⟨ha.2.1, (hb.2.2.2 (by decide)).1, (hb.2.2.2 (by decide)).2,
    (hc.2.2.2 (by decide)).1⟩

/-! ### String-shape helpers -/

theorem sdata_append (a b : String) : (a ++ b).data = a.data ++ b.data := by
  cases a
  cases b
  rfl

theorem head?_append_of_head? {α : Type} (l1 l2 : List α) (a : α)
    (h : l1.head? = some a) : (l1 ++ l2).head? = some a := by
  cases l1 with
  | nil => simp at h
  | cons x xs => simpa using h

theorem head?_sappend (s t : String) (c : Char) (h : s.data.head? = some c) :
    (s ++ t).data.head? = some c := by
  rw [sdata_append]
  exact head?_append_of_head? _ _ _ h

theorem ne_of_data_head (s t : String) (h : ¬s.data.head? = t.data.head?) : ¬s = t :=
  fun he => h (by rw [he])

/-- The first character of any rendered condition is the `$` sigil. -/
theorem cond_render_head (c : Cond) : (Cond.render c).data.head? = some '$' := by
  induction c with
  | startsWith f pat =>
    show ((("$" ++ f.render ++ "=~/^") ++ pat) ++ "/").data.head? = some '$'
    exact head?_sappend _ _ _ (head?_sappend _ _ _ (head?_sappend _ _ _
      (head?_sappend _ _ _ rfl)))
  | or a b iha ihb =>
    show ((a.render ++ " or ") ++ b.render).data.head? = some '$'
    exact head?_sappend _ _ _ (head?_sappend _ _ _ iha)

/-- The first character of any `-p` preview format is the `$` sigil. -/
theorem previewFmt_head (a : JobArgs) : (previewFmt a).data.head? = some '$' := by
  unfold previewFmt
  split
  · split
    · exact head?_sappend _ _ _ (head?_sappend _ _ _ (head?_sappend _ _ _ rfl))
    · exact head?_sappend _ _ _ (head?_sappend _ _ _ (head?_sappend _ _ _ rfl))
  · rfl

theorem mem_extArgsList (x : String) (es : List String) (h : x ∈ extArgsList es) :
    x = "-ext" ∨ x ∈ es := by
  induction es with
  | nil => simp [extArgsList] at h
  | cons e es ih =>
    simp only [extArgsList, List.mem_cons] at h
    rcases h with h | h | h
    · exact Or.inl h
    · exact Or.inr (by simp [h])
    · rcases ih h with h1 | h1
      · exact Or.inl h1
      · exact Or.inr (List.mem_cons_of_mem _ h1)

/-! ### Well-formedness of the inputs `run_job` actually receives

`which()` returns `os.path.join(dir, "exiftool")` for a `PATH` entry,
an absolute path on the enriched `PATH`; the source folder comes from the
folder chooser; extension tokens come from `parse_extensions` (lowercase,
dots stripped).  These facts are the hypotheses of the structural
claims below. -/

def isAbsPath (s : String) : Prop := s.data.head? = some '/'

instance (s : String) : Decidable (isAbsPath s) := by
  unfold isAbsPath
  infer_instance

def isExtToken (s : String) : Prop :=
  ¬s = "" ∧ ∀ c ∈ s.data, c.isLower = true ∨ c.isDigit = true

instance (s : String) : Decidable (isExtToken s) := by
  unfold isExtToken
  infer_instance

def resolvedPathsOk (env : Env) : Prop :=
  (∀ p, env.whichExiftool = some p → isAbsPath p) ∧
  (∀ p, env.whichExiftoolAfterInstall = some p → isAbsPath p)

def argsOk (a : JobArgs) : Prop :=
  isAbsPath a.source_dir ∧ ∀ es, a.exts = some es → ∀ e ∈ es, isExtToken e

/-- A main invocation, when one is produced, is `buildInvocation` for a
successfully resolved tool path. -/
theorem mainInvocation_eq (env : Env) (a : JobArgs) (inv : List String)
    (h : (run_job env a).mainInvocation = some inv) :
    ∃ etPath,
      (env.whichExiftool = some etPath ∨
        (env.whichExiftool = none ∧ env.homebrewOk = true ∧
          env.whichExiftoolAfterInstall = some etPath)) ∧
      inv = buildInvocation etPath a := by
  unfold run_job resolveTool at h
  cases h1 : env.whichExiftool with
  | some p =>
    rw [h1] at h
    refine ⟨p, Or.inl rfl, ?_⟩
    by_cases hd : a.dry_run = true
    · simp [hd] at h
      exact h.symm
    · simp [Bool.not_eq_true] at hd
      simp [hd] at h
      exact h.symm
  | none =>
    rw [h1] at h
    cases h2 : env.homebrewOk with
    | false =>
      rw [h2] at h
      simp at h
    | true =>
      rw [h2] at h
      cases h3 : env.whichExiftoolAfterInstall with
      | none =>
        rw [h3] at h
        simp at h
      | some p =>
        rw [h3] at h
        refine ⟨p, Or.inr ⟨rfl, rfl, rfl⟩, ?_⟩
        by_cases hd : a.dry_run = true
        · simp [hd] at h
          exact h.symm
        · simp [Bool.not_eq_true] at hd
          simp [hd] at h
          exact h.symm

theorem overwrite_not_mem_nonflags (etPath : String) (a : JobArgs)
    (habs : isAbsPath etPath) (hexts : ∀ es, a.exts = some es → ∀ e ∈ es, isExtToken e) :
    "-overwrite_original" ∉ ([etPath, "-fast2", "-r"] ++
      (match a.exts with
       | some es => extArgsList es
       | none => ([] : List String))) := by
  intro hmem
  rw [List.mem_append] at hmem
  rcases hmem with hmem | hmem
  · simp only [List.mem_cons, List.not_mem_nil] at hmem
    rcases hmem with h | h | h | h
    · exact ne_of_data_head _ _ (by rw [habs]; decide) h.symm
    · exact absurd h (by decide)
    · exact absurd h (by decide)
    · exact h.elim
  · cases hx : a.exts with
    | none => rw [hx] at hmem; simp at hmem
    | some es =>
      rw [hx] at hmem
      rcases mem_extArgsList _ _ hmem with h | h
      · exact absurd h (by decide)
      · have ht := hexts es hx _ h
        have hdash : '-' ∈ "-overwrite_original".data := by decide
        rcases ht.2 '-' hdash with hl | hl
        · exact absurd hl (by decide)
        · exact absurd hl (by decide)

/-- C3. The assembled invocation contains the overwrite-in-place flag
`-overwrite_original` exactly when the job is in write mode: in dry-run
mode it is never part of the invocation, in write mode it always is. -/
theorem overwrite_flag_iff_write_mode (env : Env) (a : JobArgs) (inv : List String)
    (henv : resolvedPathsOk env) (hargs : argsOk a)
    (hinv : (run_job env a).mainInvocation = some inv) :
    (a.dry_run = true → "-overwrite_original" ∉ inv) ∧
    (a.dry_run = false → "-overwrite_original" ∈ inv) := by
  obtain ⟨etPath, hres, heq⟩ := mainInvocation_eq env a inv hinv
  have habs : isAbsPath etPath := by
    rcases hres with h | ⟨h1, h2, h3⟩
    · exact henv.1 _ h
    · exact henv.2 _ h3
  subst heq
  constructor
  · intro hd
    unfold buildInvocation buildBase
    rw [hd, if_pos rfl, if_pos rfl, List.append_nil]
    intro hmem
    rw [List.mem_append] at hmem
    rcases hmem with hmem | hmem
    · exact overwrite_not_mem_nonflags etPath a habs hargs.2 hmem
    · simp only [List.mem_cons, List.not_mem_nil, or_false] at hmem
      rcases hmem with h | h | h | h | h
      · exact absurd h (by decide)
      · exact ne_of_data_head "-overwrite_original" _
          (by rw [cond_render_head (buildCond a.match_mode a.old_norm)]; decide) h
      · exact absurd h (by decide)
      · exact ne_of_data_head "-overwrite_original" _
          (by rw [previewFmt_head a]; decide) h
      · exact ne_of_data_head "-overwrite_original" _
          (by rw [hargs.1]; decide) h
  · intro hd
    unfold buildInvocation buildBase
    rw [hd, if_neg (by decide), if_neg (by decide)]
    simp

/-! ### Concrete fixtures for witnesses -/

/-- An environment in which exiftool resolves immediately. -/
def envOk0 : Env :=
  { whichExiftool := some "/opt/homebrew/bin/exiftool"
    homebrewOk := true
    whichExiftoolAfterInstall := none
    childLines := []
    childExit := 0 }

/-- An environment in which exiftool is absent and Homebrew is also
absent, so the install attempt fails. -/
def envNoTool : Env :=
  { whichExiftool := none
    homebrewOk := false
    whichExiftoolAfterInstall := none
    childLines := []
    childExit := 0 }

/-- Scenario-B-style write request. -/
def argsWrite : JobArgs :=
  { source_dir := "/photos"
    old_norm := "2025:10:25"
    new_norm := some "2025:11:01"
    match_mode := "exif"
    exts := some ["jpg", "jpeg"]
    set_modified := true
    set_created := true
    dry_run := false }

/-- Scenario-C-style dry-run request (same as `argsWrite` with
`dry_run := true`). -/
def argsDry : JobArgs :=
  { argsWrite with dry_run := true }

/-- A request with both assignment flags off. -/
def argsNoFlags : JobArgs :=
  { argsWrite with set_modified := false, set_created := false }

theorem envOk0_paths : resolvedPathsOk envOk0 := by
  constructor
  · intro p hp
    have hp2 : some "/opt/homebrew/bin/exiftool" = some p := hp
    injection hp2 with h
    rw [← h]
    decide
  · intro p hp
    exact Option.noConfusion hp

theorem argsWrite_ok : argsOk argsWrite := by
  constructor
  · decide
  · intro es hes
    have hes2 : some ["jpg", "jpeg"] = some es := hes
    injection hes2 with h
    rw [← h]
    decide

theorem argsDry_ok : argsOk argsDry := by
  constructor
  · decide
  · intro es hes
    have hes2 : some ["jpg", "jpeg"] = some es := hes
    injection hes2 with h
    rw [← h]
    decide

/-- Witness for C3: the flag is absent from the concrete dry-run
invocation and present in the concrete write invocation. -/
theorem overwrite_flag_iff_write_mode_check :
    "-overwrite_original" ∉ buildInvocation "/opt/homebrew/bin/exiftool" argsDry ∧
    "-overwrite_original" ∈ buildInvocation "/opt/homebrew/bin/exiftool" argsWrite := by
  constructor
  · exact (overwrite_flag_iff_write_mode envOk0 argsDry _ envOk0_paths argsDry_ok rfl).1 rfl
  · exact (overwrite_flag_iff_write_mode envOk0 argsWrite _ envOk0_paths argsWrite_ok rfl).2 rfl

/-- C5 (counterexample to the claim as stated). On the ToolUnavailable
path the worker emits two `ui_log` lines (the install-attempt notice and
the error line), not exactly one, and it returns without producing any
exit code at all rather than a non-zero one. -/
theorem tool_unavailable_two_log_lines :
    (run_job envNoTool argsWrite).logs.length = 2 ∧
    ¬(run_job envNoTool argsWrite).logs.length = 1 ∧
    (run_job envNoTool argsWrite).exitCode = none := by
  refine ⟨rfl, by decide, rfl⟩

/-- C5 (amended). On the ToolUnavailable path (tool absent and the
install attempt failing, either because Homebrew is unavailable or
because the tool still does not resolve after installing), exactly two
log lines are emitted — the install-attempt notice and the error line —
no child process for the main job is ever started, and the worker
returns without producing an exit code. -/
theorem tool_unavailable_trace (env : Env) (a : JobArgs)
    (h1 : env.whichExiftool = none)
    (h2 : env.homebrewOk = false ∨ env.whichExiftoolAfterInstall = none) :
    (run_job env a).logs =
      ["ExifTool not found. Attempting to install via Homebrew...",
       "ERROR: exiftool not available."] ∧
    (run_job env a).mainInvocation = none ∧
    (run_job env a).exitCode = none := by
  unfold run_job resolveTool
  rw [h1]
  rcases h2 with h2 | h2
  · rw [h2]
    exact ⟨rfl, rfl, rfl⟩
  · cases h3 : env.homebrewOk with
    | false => exact ⟨rfl, rfl, rfl⟩
    | true =>
      rw [h2]
      exact ⟨rfl, rfl, rfl⟩

/-- Witness for C5 (amended) in the concrete no-tool environment. -/
theorem tool_unavailable_trace_check :
    (run_job envNoTool argsWrite).logs =
      ["ExifTool not found. Attempting to install via Homebrew...",
       "ERROR: exiftool not available."] ∧
    (run_job envNoTool argsWrite).mainInvocation = none ∧
    (run_job envNoTool argsWrite).exitCode = none :=
  tool_unavailable_trace envNoTool argsWrite rfl (Or.inl rfl)

/-- C6. When both `set_modified` and `set_created` are requested (with a
target date present, as the `on_run` validation guarantees), the plan is
exactly the modified-date rewrite followed by the created-from-modified
copy, in that order. -/
theorem plan_modified_before_created (a : JobArgs) (nn : String)
    (hm : a.set_modified = true) (hc : a.set_created = true)
    (hn : a.new_norm = some nn) (hne : ¬nn = "") :
    buildAssigns a =
      [Assign.rewriteModifiedFrom
        (if a.match_mode = "exif" then FieldName.DateTimeOriginal else FieldName.FileModifyDate)
        a.old_norm nn,
       Assign.createdFromModified] := by
  unfold buildAssigns
  rw [hm, hc, hn]
  simp [truthy, hne]

/-- Witness for C6 on the Scenario-B write request. -/
theorem plan_modified_before_created_check :
    buildAssigns argsWrite =
      [Assign.rewriteModifiedFrom FieldName.DateTimeOriginal "2025:10:25" "2025:11:01",
       Assign.createdFromModified] := by
  have h := plan_modified_before_created argsWrite "2025:11:01" rfl rfl rfl (by decide)
  simpa using h

/-- C8. With both assignment flags off the plan is empty, whatever the
other request fields are. -/
theorem plan_empty_when_no_flags (a : JobArgs)
    (hm : a.set_modified = false) (hc : a.set_created = false) :
    buildAssigns a = [] := by
  unfold buildAssigns
  rw [hm, hc]
  simp

/-- Witness for C8. -/
theorem plan_empty_when_no_flags_check : buildAssigns argsNoFlags = [] :=
  plan_empty_when_no_flags argsNoFlags rfl rfl

/-- The UI state of a run with `set_modified` checked but no target date
entered. -/
def uiMissingTarget : UiState :=
  { dir_raw := "/photos"
    old_raw := "2025:10:25"
    new_raw := ""
    match_mode := "exif"
    dry_run := false
    set_created := true
    set_modified := true
    exts_raw := "jpg" }

/-- C7. If `set_modified` is requested and the target date is absent
(empty input), `on_run` stops with the missing-target-date error: no
worker thread is started and hence no external tool is invoked. -/
theorem missing_target_blocks_job (u : UiState) (isdir : Bool)
    (hdir : isdir = true) (hold : ¬normalize_exif (pyStrip u.old_raw) = none)
    (hsm : u.set_modified = true) (hnew : pyStrip u.new_raw = "") :
    on_run isdir u = RunOutcome.missingTargetDate ∧
    ∀ logs a, ¬on_run isdir u = RunOutcome.started logs a := by
  subst hdir
  obtain ⟨onorm, honorm⟩ := Option.ne_none_iff_exists'.mp hold
  have key : on_run true u = RunOutcome.missingTargetDate := by
    unfold on_run
    simp only [hnew, honorm, hsm, truthy]
    simp
  exact ⟨key, fun logs a h => by rw [key] at h; exact RunOutcome.noConfusion h⟩

/-- Witness for C7 on a concrete UI state. -/
theorem missing_target_blocks_job_check :
    on_run true uiMissingTarget = RunOutcome.missingTargetDate := by
  exact (missing_target_blocks_job uiMissingTarget true rfl (by decide) rfl (by decide)).1

/-! ### C9: the filter predicate -/

theorem get?_append_pair {α : Type} (l1 : List α) (x y : α) (l2 : List α) :
    (l1 ++ x :: y :: l2).get? l1.length = some x ∧
    (l1 ++ x :: y :: l2).get? (l1.length + 1) = some y := by
  induction l1 with
  | nil => exact ⟨rfl, rfl⟩
  | cons a as ih => simpa using ih

/-- A sample file whose DateTimeOriginal and FileModifyDate both carry
the matched date. -/
def tagsSample : FieldName → Option String
  | .DateTimeOriginal => some "2025:10:25 10:00:00"
  | .CreateDate => some "2024:01:01 00:00:00"
  | .FileModifyDate => some "2025:10:25 12:34:56"
  | _ => none

/-- C9. The filter predicate for EmbeddedMetadata ("exif") mode is true
exactly when DateTimeOriginal or CreateDate begins with the match date
(a disjunction of two prefix matches); for FileModified ("modified")
mode it is true exactly when FileModifyDate begins with the match date.
Every assembled invocation carries this predicate right after its `-if`
argument. -/
theorem filter_predicate_semantics (old : String) (tags : FieldName → Option String)
    (dto cd fmd : String)
    (h1 : tags FieldName.DateTimeOriginal = some dto)
    (h2 : tags FieldName.CreateDate = some cd)
    (h3 : tags FieldName.FileModifyDate = some fmd) :
    ((buildCond "exif" old).eval tags =
      (isPrefixList old.data dto.data || isPrefixList old.data cd.data)) ∧
    ((buildCond "modified" old).eval tags = isPrefixList old.data fmd.data) ∧
    (∀ env a inv, (run_job env a).mainInvocation = some inv →
      ∃ i, inv.get? i = some "-if" ∧
        inv.get? (i + 1) = some ((buildCond a.match_mode a.old_norm).render)) := by
  refine ⟨by simp [buildCond, Cond.eval, h1, h2], by simp [buildCond, Cond.eval, h3], ?_⟩
  intro env a inv hinv
  obtain ⟨etPath, _, heq⟩ := mainInvocation_eq env a inv hinv
  subst heq
  unfold buildInvocation
  by_cases hd : a.dry_run = true
  · rw [if_pos hd]
    exact ⟨(buildBase etPath a).length, (get?_append_pair _ _ _ _).1,
      (get?_append_pair _ _ _ _).2⟩
  · rw [if_neg hd]
    have hpair := get?_append_pair (buildBase etPath a) "-if"
      ((buildCond a.match_mode a.old_norm).render)
      ((buildAssigns a).map Assign.render ++ [a.source_dir])
    exact ⟨(buildBase etPath a).length,
      by simpa [List.append_assoc] using hpair.1,
      by simpa [List.append_assoc] using hpair.2⟩

/-- Witness for C9: concrete predicate evaluations, and the `-if`
condition sits at positions 8/9 of the concrete write invocation. -/
theorem filter_predicate_semantics_check :
    (buildCond "exif" "2025:10:25").eval tagsSample = true ∧
    (buildCond "modified" "2025:10:25").eval tagsSample = true ∧
    (buildInvocation "/opt/homebrew/bin/exiftool" argsWrite).get? 8 = some "-if" ∧
    (buildInvocation "/opt/homebrew/bin/exiftool" argsWrite).get? 9 =
      some ((buildCond "exif" "2025:10:25").render) := by
  have h := filter_predicate_semantics "2025:10:25" tagsSample
    "2025:10:25 10:00:00" "2024:01:01 00:00:00" "2025:10:25 12:34:56" rfl rfl rfl
  refine ⟨?_, ?_, by decide, by decide⟩
  · rw [h.1]
    decide
  · rw [h.2.1]
    decide

/-! ### C10: the rewrite reads only DateTimeOriginal in exif mode -/

/-- A file that passes the exif-mode filter solely because its
CreateDate matches (its DateTimeOriginal carries a different date). -/
def tagsCX : FieldName → Option String
  | .DateTimeOriginal => some "2020:01:01 10:00:00"
  | .CreateDate => some "2025:10:25 09:00:00"
  | _ => none

/-- Like `tagsCX` but with no CreateDate at all. -/
def tagsCX2 : FieldName → Option String
  | .DateTimeOriginal => some "2020:01:01 10:00:00"
  | _ => none

/-- C10. In exif mode with `set_modified` on, the planned modified-date
rewrite sources from DateTimeOriginal — its written value depends only on
the DateTimeOriginal tag, never on CreateDate, even though the filter
accepts files by either field. -/
theorem rewrite_reads_only_original (a : JobArgs) (nn : String)
    (hmode : a.match_mode = "exif") (hm : a.set_modified = true)
    (hn : a.new_norm = some nn) (hne : ¬nn = "") :
    (∃ rest, buildAssigns a =
      Assign.rewriteModifiedFrom FieldName.DateTimeOriginal a.old_norm nn :: rest) ∧
    (∀ tags tags2 : FieldName → Option String,
      tags FieldName.DateTimeOriginal = tags2 FieldName.DateTimeOriginal →
      Assign.valueWritten tags
          (Assign.rewriteModifiedFrom FieldName.DateTimeOriginal a.old_norm nn) =
        Assign.valueWritten tags2
          (Assign.rewriteModifiedFrom FieldName.DateTimeOriginal a.old_norm nn)) := by
  constructor
  · refine ⟨if a.set_created then [Assign.createdFromModified] else [], ?_⟩
    unfold buildAssigns
    rw [hm, hn, hmode]
    simp [truthy, hne]
  · intro tags tags2 hagree
    simp [Assign.valueWritten, hagree]

/-- Witness for C10: a file matched only via CreateDate is still
rewritten from DateTimeOriginal — removing CreateDate entirely does not
change the written value. -/
theorem rewrite_reads_only_original_check :
    buildAssigns argsWrite =
      [Assign.rewriteModifiedFrom FieldName.DateTimeOriginal "2025:10:25" "2025:11:01",
       Assign.createdFromModified] ∧
    (buildCond "exif" "2025:10:25").eval tagsCX = true ∧
    Assign.valueWritten tagsCX
        (Assign.rewriteModifiedFrom FieldName.DateTimeOriginal "2025:10:25" "2025:11:01") =
      Assign.valueWritten tagsCX2
        (Assign.rewriteModifiedFrom FieldName.DateTimeOriginal "2025:10:25" "2025:11:01") := by
  have h := rewrite_reads_only_original argsWrite "2025:11:01" rfl rfl rfl (by decide)
  exact ⟨by decide, by decide, h.2 tagsCX tagsCX2 rfl⟩

/-! ### C4: dry-run preview vs write-mode substitution -/

theorem smk_data (s : String) : String.mk s.data = s := by
  cases s
  rfl

theorem isPrefixList_append (l r : List Char) : isPrefixList l (l ++ r) = true := by
  induction l with
  | nil => rfl
  | cons a as ih => simp [isPrefixList, ih]

/-- C4 (counterexample to the claim as stated). For a dry-run exif-mode
request, a matched file whose match came solely from CreateDate gets a
previewed post-value (target date plus DateTimeOriginal's time-of-day)
that differs from what the write-mode prefix substitution would produce
(DateTimeOriginal unchanged, since the match-date prefix is absent): the
preview is not derived by the same rule. -/
theorem preview_write_divergence :
    (buildCond "exif" "2025:10:25").eval tagsCX = true ∧
    ¬previewPostValue "2025:11:01" "2020:01:01 10:00:00" =
      substLeading "2025:10:25" "2025:11:01" "2020:01:01 10:00:00" ∧
    previewFmt argsDry =
      "$FileName | $DateTimeOriginal -> " ++ "2025:11:01" ++ " " ++
        stripExpr "DateTimeOriginal" ∧
    Assign.valueWritten tagsCX
        (Assign.rewriteModifiedFrom FieldName.DateTimeOriginal "2025:10:25" "2025:11:01") =
      some "2020:01:01 10:00:00" := by
  refine ⟨by decide, by decide, by decide, by decide⟩

/-- C4 (amended). When the source date field's value actually begins
with the (canonically shaped) match date followed by a space and the
time-of-day, the dry-run previewed post-value coincides with the value
the write-mode assignment would produce by prefix substitution — the
time-of-day is untouched and no write is involved in computing it. -/
theorem preview_equals_subst_on_matching_field (y m d : Nat) (nn tod : String) :
    previewPostValue nn (canonStr y m d ++ " " ++ tod) =
      substLeading (canonStr y m d) nn (canonStr y m d ++ " " ++ tod) ∧
    (∀ (tags : FieldName → Option String) (src : FieldName),
      tags src = some (canonStr y m d ++ " " ++ tod) →
      Assign.valueWritten tags
          (Assign.rewriteModifiedFrom src (canonStr y m d) nn) =
        some (previewPostValue nn (canonStr y m d ++ " " ++ tod))) := by
  have hdata1 : (canonStr y m d ++ " " ++ tod).data = fmtYMD y m d ++ ' ' :: tod.data := by
    rw [sdata_append, sdata_append]
    show (fmtYMD y m d ++ [' ']) ++ tod.data = fmtYMD y m d ++ ' ' :: tod.data
    rw [List.append_assoc]
    rfl
  have hmatch : dateTimePrefixMatch ((canonStr y m d ++ " " ++ tod).data) = some tod.data := by
    rw [hdata1]
    simp [fmtYMD, pad4, pad2, dateTimePrefixMatch, digitChar_isDigit]
  have hstrip : stripLeadingDateTime (canonStr y m d ++ " " ++ tod) = tod := by
    unfold stripLeadingDateTime
    rw [hmatch]
  have hsubst : substLeading (canonStr y m d) nn (canonStr y m d ++ " " ++ tod) =
      nn ++ " " ++ tod := by
    unfold substLeading
    rw [hdata1]
    rw [show (canonStr y m d).data = fmtYMD y m d from rfl]
    rw [if_pos (isPrefixList_append (fmtYMD y m d) (' ' :: tod.data))]
    rw [List.drop_left]
    apply String.ext
    rw [show (String.mk (nn.data ++ ' ' :: tod.data)).data = nn.data ++ ' ' :: tod.data from rfl]
    rw [sdata_append, sdata_append, List.append_assoc]
    rfl
  have hmain : previewPostValue nn (canonStr y m d ++ " " ++ tod) =
      substLeading (canonStr y m d) nn (canonStr y m d ++ " " ++ tod) := by
    rw [hsubst]
    unfold previewPostValue
    rw [hstrip]
  refine ⟨hmain, fun tags src htags => ?_⟩
  show (tags src).map (substLeading (canonStr y m d) nn) = _
  rw [htags]
  show some (substLeading (canonStr y m d) nn (canonStr y m d ++ " " ++ tod)) = _
  rw [hmain]

/-- A file whose FileModifyDate is exactly the matched date plus a
time-of-day. -/
def tagsMod : FieldName → Option String
  | .FileModifyDate => some (canonStr 2025 10 25 ++ " " ++ "10:00:00")
  | _ => none

/-- Witness for C4 (amended) at a concrete matched value. -/
theorem preview_equals_subst_check :
    previewPostValue "2025:11:01" (canonStr 2025 10 25 ++ " " ++ "10:00:00") =
      substLeading (canonStr 2025 10 25) "2025:11:01"
        (canonStr 2025 10 25 ++ " " ++ "10:00:00") ∧
    Assign.valueWritten tagsMod
        (Assign.rewriteModifiedFrom FieldName.FileModifyDate (canonStr 2025 10 25)
          "2025:11:01") =
      some (previewPostValue "2025:11:01" (canonStr 2025 10 25 ++ " " ++ "10:00:00")) := by
  have h := preview_equals_subst_on_matching_field 2025 10 25 "2025:11:01" "10:00:00"
  exact ⟨h.1, h.2 tagsMod FieldName.FileModifyDate rfl⟩

end DateChanger
